import Mathlib

/-!
Verification development for the font subsystem of a PDF generation library
(a fork of gofpdf).  The Go sources are embedded shallowly:

* pure Go functions become Lean functions with the same names;
* the `Fpdf` receiver methods become functions `Fpdf → … → Fpdf`,
  with the emitted PDF text modelled as a structured event list
  (one event per `out`/`outf`/`putstream` call, carrying that call's
  format arguments);
* file and reader I/O (`os.Open`, `loadfont`, `TtfParse`, `loadMap` file
  reads, `coreFontReader`) is modelled by passing the outcome of the read
  as an explicit argument or as an environment field of the state;
* Go `int` is `Int`, byte slices are `List Nat`, `float64` values that
  the claims reason about are exact rationals `ℚ`;
* Go map iteration plus `catalogSort` sorting is modelled with
  insertion-ordered association lists plus an explicit string sort.
-/

namespace Gofpdf

/-- Association-list membership test, modelling `_, ok := m[key]` on a Go map. -/
def assocHas (l : List (String × α)) (k : String) : Bool :=
  l.any (fun kv => kv.1 = k)

/-- Association-list read with default, modelling `m[key]` on a Go map
(the zero value is returned for a missing key). -/
def assocGetD (l : List (String × α)) (k : String) (d : α) : α :=
  match l.find? (fun kv => kv.1 = k) with
  | some kv => kv.2
  | none => d

/-- Association-list write, modelling `m[key] = v` on a Go map: replace the
binding in place when the key exists, otherwise append a new binding. -/
def assocSet (l : List (String × α)) (k : String) (v : α) : List (String × α) :=
  match l with
  | [] => [(k, v)]
  | kv :: rest =>
      if kv.1 = k then (k, v) :: rest else kv :: assocSet rest k v

/-- Models Go `strings.ToLower` (ASCII case folding suffices for the keys at
issue). -/
def goToLower (s : String) : String := String.mk (s.toList.map Char.toLower)

/-- Models Go `strings.ToUpper` (ASCII case folding suffices for the keys at
issue). -/
def goToUpper (s : String) : String := String.mk (s.toList.map Char.toUpper)

/-- Lexicographic comparison of character lists by code point. -/
def charListLe : List Char → List Char → Bool
  | [], _ => true
  | _ :: _, [] => false
  | c :: cs, d :: ds =>
      if c.toNat < d.toNat then true
      else if d.toNat < c.toNat then false
      else charListLe cs ds

/-- The string order of Go `sort.Strings` (byte-lexicographic; identical to
code-point order on the ASCII names at issue), in an executable form. -/
def goStringLe (s t : String) : Bool := charListLe s.toList t.toList

/-- Insert a string into a sorted list, keeping it sorted. -/
def insertSorted (s : String) : List String → List String
  | [] => [s]
  | t :: rest => if goStringLe s t then s :: t :: rest else t :: insertSorted s rest

/-- Models Go `sort.Strings`. -/
def sortStrings (l : List String) : List String := l.foldr insertSorted []

/-- Models Go `strings.TrimSpace`: remove leading and trailing whitespace
(executable, unlike `String.trim`, so witnesses can evaluate it). -/
def goTrimSpace (s : String) : String :=
  String.mk (((s.toList.dropWhile Char.isWhitespace).reverse.dropWhile
    Char.isWhitespace).reverse)

/-- The last two characters of a string, modelling the Go byte-slice
expression `s[len(s)-2:]` for the ASCII file names at issue. -/
def lastTwo (s : String) : String := String.mk (s.toList.drop (s.toList.length - 2))

/-- Go slice expression `l[i:j]` (for in-range `i ≤ j`; the sources only
evaluate it in range on the inputs considered here). -/
def intSlice (l : List Nat) (i j : Int) : List Nat :=
  (l.drop i.toNat).take (j.toNat - i.toNat)

/-- `func round(f float64) int` (part_000 lines 30–35), with the `float64`
argument modelled as an exact rational:
`if f < 0 { return -int(math.Floor(-f + 0.5)) }; return int(math.Floor(f + 0.5))`. -/
def round (f : ℚ) : ℤ :=
  if f < 0 then -⌊-f + 1/2⌋ else ⌊f + 1/2⌋

/-- One slot of `encListType`: `type encType struct { uv int; name string }`. -/
structure encType where
  uv : Int
  name : String
  deriving DecidableEq

/-- `[256]encType`, modelled as a list that is built with 256 elements. -/
def encListType := List encType

instance : DecidableEq encListType := inferInstanceAs (DecidableEq (List encType))

/-- `fontBoxType` with `Xmin, Ymin, Xmax, Ymax int`. -/
structure fontBoxType where
  Xmin : Int
  Ymin : Int
  Xmax : Int
  Ymax : Int
  deriving DecidableEq

/-- `FontDescType` as serialized by `putfonts`. -/
structure FontDescType where
  Ascent : Int
  Descent : Int
  CapHeight : Int
  Flags : Int
  FontBBox : fontBoxType
  ItalicAngle : Int
  StemV : Int
  MissingWidth : Int
  deriving DecidableEq

/-- The zero value of `FontDescType` (every numeric field 0, zero box). -/
def fontDescZero : FontDescType :=
  ⟨0, 0, 0, 0, ⟨0, 0, 0, 0⟩, 0, 0, 0⟩

/-- `fontType`, the per-font record held in the registry.  `Cw` is the
256-entry width table, `Data` the embedded program bytes. -/
structure fontType where
  Tp : String
  Name : String
  Desc : FontDescType
  Up : Int
  Ut : Int
  Cw : List Int
  Enc : String
  Diff : String
  File : String
  Size1 : Int
  Size2 : Int
  OriginalSize : Int
  N : Int
  I : Int
  DiffN : Int
  Data : List Nat
  Bold : Bool
  IsFixedPitch : Bool
  deriving DecidableEq

/-- The zero value of `fontType`, as produced by reading a missing key from a
Go `map[string]fontType`. -/
def fontTypeZero : fontType :=
  ⟨"", "", fontDescZero, 0, 0, List.replicate 256 0, "", "", "", 0, 0, 0, 0, 0, 0, [], false, false⟩

instance : Inhabited fontType := ⟨fontTypeZero⟩

/-! ## Encoding table loader (`loadMap`, part_001 lines 492–525)

The file I/O of `loadMap` is modelled by giving the function the per-line
outcome of `fmt.Sscanf(line, "!%x U+%x %s", &pos, &enc.uv, &enc.name)`:
`some (pos, enc)` for a line matching the pattern, `none` for a pattern
mismatch. -/

/-- The initial table: `encList[j].uv = -1; encList[j].name = ".notdef"`
for all 256 slots. -/
def loadMapInit : encListType := List.replicate 256 ⟨-1, ".notdef"⟩

/-- The scanner loop of `loadMap`: on a scan error return it at once; on
`pos < 256` store the slot; on `pos ≥ 256` return the range error at once. -/
def loadMapLoop : List (Option (Nat × encType)) → encListType → Except String encListType
  | [], encList => .ok encList
  | none :: _, _ => .error "scan error"
  | some (pos, enc) :: rest, encList =>
      if pos < 256 then loadMapLoop rest (encList.set pos enc)
      else .error "map position exceeds 0xFF"

/-- `loadMap` over the line outcomes of an encoding map file. -/
def loadMap (lines : List (Option (Nat × encType))) : Except String encListType :=
  loadMapLoop lines loadMapInit

/-- One step of the specification-side table builder: set the slot named by
a well-formed line. -/
def loadMapSpecStep (t : encListType) (l : Option (Nat × encType)) : encListType :=
  match l with
  | some (pos, enc) => t.set pos enc
  | none => t

/-- Specification-side table builder, from the spec's words: initialize all
256 slots to `{-1, ".notdef"}` and set the slot named by each well-formed
line, in order. -/
def loadMapSpecTable (lines : List (Option (Nat × encType))) : encListType :=
  lines.foldl loadMapSpecStep loadMapInit

/-! ## Encoding differences builder (`makeFontEncoding`, part_001 lines 756–774) -/

/-- One step of the differences loop, carrying `(last, buf)`:
`if encList[j].name != refList[j].name { if j != last+1 { buf.printf("%d ", j) };
last = j; buf.printf("/%s ", encList[j].name) }`. -/
def makeFontEncodingStep (encList refList : encListType) (st : Nat × String) (j : Nat) :
    Nat × String :=
  if (encList.getD j ⟨-1, ".notdef"⟩).name ≠ (refList.getD j ⟨-1, ".notdef"⟩).name then
    let buf := if j ≠ st.1 + 1 then st.2 ++ toString j ++ " " else st.2
    (j, buf ++ "/" ++ (encList.getD j ⟨-1, ".notdef"⟩).name ++ " ")
  else st

/-- The `for j := 32; j < 256; j++` differences loop followed by
`strings.TrimSpace`. -/
def makeFontEncodingCore (encList refList : encListType) : String :=
  goTrimSpace ((List.range' 32 224).foldl (makeFontEncodingStep encList refList) (0, "")).2

/-- `makeFontEncoding`: load the reference encoding (file I/O modelled by the
line outcomes), then build the differences string. -/
def makeFontEncoding (encList : encListType) (refLines : List (Option (Nat × encType))) :
    Except String String :=
  match loadMap refLines with
  | .error e => .error e
  | .ok refList => .ok (makeFontEncodingCore encList refList)

/-- Specification-side differences builder, from the claim's words: scan the
positions in order, and for each position whose glyph name differs from the
reference emit the slash-prefixed name, preceded by the numeric position
exactly when the position is not immediately contiguous with the previous
emitted position (`prev` is the previous emitted position, if any). -/
def diffSpec (encList refList : encListType) : List Nat → Option Nat → String
  | [], _ => ""
  | j :: rest, prev =>
      if (encList.getD j ⟨-1, ".notdef"⟩).name ≠ (refList.getD j ⟨-1, ".notdef"⟩).name then
        (if prev = some (j - 1) then "" else toString j ++ " ") ++
          "/" ++ (encList.getD j ⟨-1, ".notdef"⟩).name ++ " " ++
          diffSpec encList refList rest (some j)
      else diffSpec encList refList rest prev

/-! ## Type1 binary container reader (`segmentRead` / `getInfoFromType1`,
part_001 lines 582–634) -/

/-- `segmentType`: 1-byte marker, 1-byte type, 4-byte little-endian size,
`size` bytes of payload. -/
structure segmentType where
  marker : Nat
  tp : Nat
  size : Nat
  data : List Nat
  deriving DecidableEq

/-- The 4-byte little-endian segment length:
`binary.Read(f, binary.LittleEndian, &s.size)`. -/
def segLE32 (b0 b1 b2 b3 : Nat) : Nat :=
  b0 + 256 * b1 + 65536 * b2 + 16777216 * b3

/-- The bytes actually delivered by `f.Read(s.data)`: at most `size` bytes
from the current position. -/
def segAvail (file : List Nat) (pos size : Nat) : List Nat :=
  (file.drop (pos + 6)).take size

/-- The payload buffer after `f.Read(s.data)`: the buffer is created zeroed
by `make([]byte, s.size)`, so a short read leaves a zero tail. -/
def segData (file : List Nat) (pos size : Nat) : List Nat :=
  segAvail file pos size ++ List.replicate (size - (segAvail file pos size).length) 0

/-- `segmentRead` over the file's bytes and the current read position.
`binary.Read` of the three header fields fails at EOF with too few bytes;
a marker other than 128 fails with the Type1 parse error before anything
further is read.  The final `f.Read(s.data)` errors only when `size > 0`
and no byte remains.  Returns the segment and the position after the bytes
actually read. -/
def segmentRead (file : List Nat) (pos : Nat) : Except String (segmentType × Nat) :=
  match file[pos]? with
  | none => .error "EOF"
  | some marker =>
    if marker ≠ 128 then .error "font file is not a valid binary Type1" else
    match file[pos+1]? with
    | none => .error "EOF"
    | some tp =>
      match file[pos+2]?, file[pos+3]?, file[pos+4]?, file[pos+5]? with
      | some b0, some b1, some b2, some b3 =>
        if segLE32 b0 b1 b2 b3 > 0 ∧ file.length ≤ pos + 6 then .error "EOF"
        else
          .ok (⟨marker, tp, segLE32 b0 b1 b2 b3, segData file pos (segLE32 b0 b1 b2 b3)⟩,
            pos + 6 + (segAvail file pos (segLE32 b0 b1 b2 b3)).length)
      | _, _, _, _ => .error "EOF"

/-- The embedding phase of `getInfoFromType1` (lines 620–633): read exactly
two segments, concatenate their payloads into `Data`, and record
`Size1`/`Size2`.  On any error no data is produced. -/
def type1Embed (file : List Nat) : Except String (List Nat × Int × Int) :=
  match segmentRead file 0 with
  | .error e => .error e
  | .ok (s1, p1) =>
    match segmentRead file p1 with
    | .error e => .error e
    | .ok (s2, _) => .ok (s1.data ++ s2.data, (s1.size : Int), (s2.size : Int))

/-! ## Font descriptor builder (`makeFontDescriptor`, part_001 lines 733–753) -/

/-- The `CapHeight` defaulting of `makeFontDescriptor`. -/
def descCapHeight (d : FontDescType) : FontDescType :=
  if d.CapHeight = 0 then { d with CapHeight := d.Ascent } else d

/-- The flag computation of `makeFontDescriptor`. -/
def descFlags (isFixedPitch : Bool) (italicAngle : Int) : Int :=
  (if isFixedPitch then (32 : Int) + 1 else 32) + (if italicAngle ≠ 0 then 64 else 0)

/-- The `StemV` defaulting of `makeFontDescriptor`. -/
def descStemV (d : FontDescType) (bold : Bool) : FontDescType :=
  if d.StemV = 0 then { d with StemV := if bold then (120 : Int) else 70 } else d

/-- `makeFontDescriptor`, as a pure function on the record the Go code
mutates through a pointer.  The Go flag updates `Flags = 1 << 5`,
`Flags |= 1`, `Flags |= 1 << 6` combine pairwise-disjoint bits, so each
bitwise-or is written as the addition it amounts to. -/
def makeFontDescriptor (info : fontType) : fontType :=
  { info with
    Desc :=
      descStemV
        { descCapHeight info.Desc with
          Flags := descFlags info.IsFixedPitch info.Desc.ItalicAngle }
        info.Bold }

/-! ## TrueType metrics extractor (`getInfoFromTrueType`, part_001 lines 527–580)

`TtfParse` and the raw file read are external I/O; their outcomes are passed
in.  The non-fatal missing-character diagnostics written to `msgWriter` are a
write-only sink and are not modelled. -/

/-- The fields of the external `TtfType` that `getInfoFromTrueType` reads. -/
structure TtfType where
  Embeddable : Bool
  UnitsPerEm : Int
  PostScriptName : String
  Bold : Bool
  ItalicAngle : Int
  IsFixedPitch : Bool
  TypoAscender : Int
  TypoDescender : Int
  UnderlineThickness : Int
  UnderlinePosition : Int
  Xmin : Int
  Ymin : Int
  Xmax : Int
  Ymax : Int
  CapHeight : Int
  Widths : List Int
  Chars : List (Nat × Nat)
  deriving DecidableEq

/-- Lookup in the `Chars` codepoint-to-glyph-index map:
`pos, ok := ttf.Chars[uint16(uv)]`. -/
def charsLookup (chars : List (Nat × Nat)) (u : Nat) : Option Nat :=
  (chars.find? (fun kv => kv.1 = u)).map (·.2)

/-- `k := 1000.0 / float64(ttf.UnitsPerEm)`. -/
def ttfScale (ttf : TtfType) : ℚ := 1000 / (ttf.UnitsPerEm : ℚ)

/-- The 256-slot width loop of `getInfoFromTrueType`: mapped slots take the
scaled glyph advance, unmapped codepoints fall back to `MissingWidth`
(= the scaled advance of glyph index 0). -/
def trueTypeWidths (ttf : TtfType) (encList : encListType) : List Int :=
  (List.range 256).map (fun j =>
    let e := encList.getD j ⟨-1, ".notdef"⟩
    if e.name ≠ ".notdef" then
      match charsLookup ttf.Chars ((e.uv % 65536).toNat) with
      | some pos => round (ttfScale ttf * (ttf.Widths.getD pos 0 : ℚ))
      | none => round (ttfScale ttf * (ttf.Widths.getD 0 0 : ℚ))
    else round (ttfScale ttf * (ttf.Widths.getD 0 0 : ℚ)))

/-- The record that `getInfoFromTrueType` fills in (lines 539–576): every
scaled metric goes through `round`. -/
def ttfInfoRecord (ttf : TtfType) (data : List Nat) (encList : encListType) : fontType :=
  { fontTypeZero with
    Data := data
    Name := ttf.PostScriptName
    Bold := ttf.Bold
    IsFixedPitch := ttf.IsFixedPitch
    Desc := { fontDescZero with
      ItalicAngle := ttf.ItalicAngle
      Ascent := round (ttfScale ttf * (ttf.TypoAscender : ℚ))
      Descent := round (ttfScale ttf * (ttf.TypoDescender : ℚ))
      FontBBox :=
        ⟨round (ttfScale ttf * (ttf.Xmin : ℚ)), round (ttfScale ttf * (ttf.Ymin : ℚ)),
         round (ttfScale ttf * (ttf.Xmax : ℚ)), round (ttfScale ttf * (ttf.Ymax : ℚ))⟩
      CapHeight := round (ttfScale ttf * (ttf.CapHeight : ℚ))
      MissingWidth := round (ttfScale ttf * (ttf.Widths.getD 0 0 : ℚ)) }
    Ut := round (ttfScale ttf * (ttf.UnderlineThickness : ℚ))
    Up := round (ttfScale ttf * (ttf.UnderlinePosition : ℚ))
    Cw := trueTypeWidths ttf encList }

/-- `getInfoFromTrueType`: `ttfRes` is the outcome of `TtfParse(fileStr)`,
`fileBytes` the outcome of `ioutil.ReadFile(fileStr)` (read only when
embedding). -/
def getInfoFromTrueType (ttfRes : Except String TtfType) (embed : Bool)
    (fileBytes : Option (List Nat)) (encList : encListType) : Except String fontType :=
  match ttfRes with
  | .error e => .error e
  | .ok ttf =>
    if embed ∧ ¬ ttf.Embeddable then .error "font license does not allow embedding"
    else
      match (if embed then
               match fileBytes with
               | some b => Except.ok b
               | none => Except.error "read error"
             else Except.ok ([] : List Nat)) with
      | .error e => .error e
      | .ok data => .ok (ttfInfoRecord ttf data encList)

/-! ## Session state and the font registry -/

/-- One event per `out`/`outf`/`putstream` call of the emitter, carrying
the call's format arguments. -/
inductive OutEvent where
  | objBegin (n : Nat)
  | encodingObj (diff : String)
  | endobj
  | lengthHdr (len : Nat)
  | filterFlate
  | length1 (v : Int)
  | length23 (v : Int)
  | dictClose
  | streamBytes (bytes : List Nat)
  | fontDictOpen
  | baseFont (name : String)
  | subtype (tp : String)
  | encodingWinAnsi
  | firstLastChar
  | widthsRef (n : Nat)
  | fontDescRef (n : Nat)
  | encodingRef (n : Int)
  | widthsArr (ws : List Int)
  | descriptorObj (name : String) (desc : FontDescType) (suffix : String) (fontFileN : Nat)
  | textFontOp (i : Int) (sizePt : ℚ)
  deriving DecidableEq

/-- The font-subsystem slice of the `Fpdf` session state.  `fileData` is the
environment of `loadFontFile`: the bytes behind each font file name. -/
structure Fpdf where
  err : Option String
  n : Nat
  fonts : List (String × fontType)
  diffs : List String
  fontFamily : String
  fontStyle : String
  fontSizePt : ℚ
  fontSize : ℚ
  k : ℚ
  underline : Bool
  currentFont : fontType
  coreFonts : List String
  page : Nat
  catalogSort : Bool
  output : List OutEvent
  fileData : String → Option (List Nat)

/-- `f.out` / `f.outf`: append one output event. -/
def out (f : Fpdf) (e : OutEvent) : Fpdf := { f with output := f.output ++ [e] }

/-- Append several output events in order. -/
def outs (f : Fpdf) (es : List OutEvent) : Fpdf := es.foldl out f

/-- `f.newobj()`: advance the object counter and begin object `f.n`. -/
def newobj (f : Fpdf) : Fpdf :=
  { f with n := f.n + 1, output := f.output ++ [.objBegin (f.n + 1)] }

/-- `getFontKey` (part_001 lines 127–134). -/
def getFontKey (familyStr styleStr : String) : String :=
  goToLower familyStr ++
    (if goToUpper styleStr = "IB" then "BI" else goToUpper styleStr)

/-- The linear scan of `f.diffs` in `addFontFromInfo`, returning the 1-based
index of the first exact match. -/
def diffLookup : List String → String → Nat → Option Nat
  | [], _, _ => none
  | s :: rest, d, j => if s = d then some (j + 1) else diffLookup rest d (j + 1)

/-- `addFontFromInfo` (part_001 lines 158–178): assign `I`, deduplicate the
differences string against `f.diffs` (1-based index, appending when new),
and store the font under `fontkey`. -/
def addFontFromInfo (f : Fpdf) (info0 : fontType) (fontkey : String) : Fpdf :=
  if info0.Diff.length > 0 then
    match diffLookup f.diffs info0.Diff 0 with
    | some n =>
        { f with fonts :=
            (assocSet f.fonts fontkey
              { info0 with I := (f.fonts.length : Int), DiffN := (n : Int) }) }
    | none =>
        { f with
          diffs := f.diffs ++ [info0.Diff]
          fonts :=
            (assocSet f.fonts fontkey
              { info0 with
                I := (f.fonts.length : Int), DiffN := (f.diffs.length : Int) + 1 }) }
  else
    { f with fonts :=
        (assocSet f.fonts fontkey { info0 with I := (f.fonts.length : Int) }) }

/-- `AddFontFromReader` (part_001 lines 139–156): `r` is the outcome of
`f.loadfont(reader)` (a failing load sets `f.err`). -/
def addFontFromReader (f : Fpdf) (familyStr styleStr : String)
    (r : Except String fontType) : Fpdf :=
  match f.err with
  | some _ => f
  | none =>
    if assocHas f.fonts (getFontKey familyStr styleStr) then f
    else
      match r with
      | .error e => { f with err := some e }
      | .ok info => addFontFromInfo f info (getFontKey familyStr styleStr)

/-- `AddFont` (part_001 lines 62–87).  The definition-file open and parse are
I/O: `defLoad`'s outer layer is the open outcome (an open failure sets
`f.err` directly, line 81), the inner layer the `loadfont` outcome handed to
`AddFontFromReader`. -/
def addFont (f : Fpdf) (familyStr styleStr : String)
    (defLoad : Except String (Except String fontType)) : Fpdf :=
  match defLoad with
  | .error e => { f with err := some e }
  | .ok r => addFontFromReader f familyStr styleStr r

/-- `AddTTFFont` (part_001 lines 90–124).  `mapLoad` is the outcome of
`loadMap(cp1252.map)`, `ttLoad` the outcome of
`getInfoFromTrueType(fullFileStr, os.Stdout, true, encList)`, and
`abortLoad` the environment of the `abort()` fallback to `AddFont`. -/
def addTTFFont (f : Fpdf) (familyStr styleStr fileStr : String)
    (mapLoad : Except String encListType)
    (ttLoad : Except String fontType)
    (abortLoad : Except String (Except String fontType)) : Fpdf :=
  if assocHas f.fonts (getFontKey familyStr styleStr) then f
  else
    match mapLoad with
    | .error _ => addFont f familyStr styleStr abortLoad
    | .ok _ =>
      match ttLoad with
      | .error _ => addFont f familyStr styleStr abortLoad
      | .ok info0 =>
        addFontFromInfo f
          { makeFontDescriptor { info0 with Tp := "TrueType" } with
            OriginalSize := (info0.Data.length : Int)
            File := if fileStr = "" then
                (familyStr.replace " " "") ++ goToLower styleStr ++ ".ttf"
              else fileStr }
          (getFontKey familyStr styleStr)

/-- `GetFontDesc` (part_001 lines 185–190): for an empty family return the
current font's descriptor, otherwise the Go-map read `f.fonts[key].Desc`
(the zero value for a missing key).  The function reads but never writes
the session state. -/
def getFontDesc (f : Fpdf) (familyStr styleStr : String) : FontDescType :=
  if familyStr = "" then f.currentFont.Desc
  else (assocGetD f.fonts (getFontKey familyStr styleStr) fontTypeZero).Desc

/-- The font-selection tail of `SetFont` (part_001 lines 279–288). -/
def setFontSelect (f : Fpdf) (familyStr styleStr : String) (size : ℚ)
    (fontkey : String) : Fpdf :=
  if f.page > 0 then
    out { f with fontFamily := familyStr, fontStyle := styleStr, fontSizePt := size,
                 fontSize := size / f.k,
                 currentFont := assocGetD f.fonts fontkey fontTypeZero }
      (.textFontOp (assocGetD f.fonts fontkey fontTypeZero).I size)
  else
    { f with fontFamily := familyStr, fontStyle := styleStr, fontSizePt := size,
             fontSize := size / f.k,
             currentFont := assocGetD f.fonts fontkey fontTypeZero }

/-- The inner core-font registration of `SetFont` (part_001 lines 257–273),
entered with the family already known to be a core family and mapped to
its final name. -/
def setFontCoreFound (f : Fpdf) (familyStr3 styleStr : String) (size : ℚ)
    (coreLoad : String → String → Except String fontType) : Fpdf :=
  if assocHas f.fonts
      (familyStr3 ++ (if familyStr3 = "zapfdingbats" then "" else styleStr)) then
    setFontSelect f familyStr3 (if familyStr3 = "zapfdingbats" then "" else styleStr) size
      (familyStr3 ++ (if familyStr3 = "zapfdingbats" then "" else styleStr))
  else
    match coreLoad familyStr3 (if familyStr3 = "zapfdingbats" then "" else styleStr) with
    | .error e => { f with err := some e }
    | .ok info =>
        setFontSelect
          (addFontFromReader f familyStr3
            (if familyStr3 = "zapfdingbats" then "" else styleStr) (.ok info))
          familyStr3 (if familyStr3 = "zapfdingbats" then "" else styleStr) size
          (familyStr3 ++ (if familyStr3 = "zapfdingbats" then "" else styleStr))

/-- The core-font branch of `SetFont` (part_001 lines 251–277), with the
`arial → helvetica` mapping already applied to `familyStr2`. -/
def setFontCore (f : Fpdf) (familyStr2 styleStr : String) (size : ℚ)
    (coreLoad : String → String → Except String fontType) : Fpdf :=
  if familyStr2 ∈ f.coreFonts then
    setFontCoreFound f (if familyStr2 = "symbol" then "zapfdingbats" else familyStr2)
      styleStr size coreLoad
  else
    { f with err := some ("undefined font: " ++ familyStr2 ++ " " ++ styleStr) }

/-- The style normalization of `SetFont` (part_001 lines 232–239): uppercase,
strip `"U"` when present, then normalize `"IB"` to `"BI"`. -/
def setFontStyleNorm (styleStr0 : String) : String :=
  if (if (goToUpper styleStr0).contains 'U' then
        (goToUpper styleStr0).replace "U" ""
      else goToUpper styleStr0) = "IB" then "BI"
  else
    (if (goToUpper styleStr0).contains 'U' then
      (goToUpper styleStr0).replace "U" ""
    else goToUpper styleStr0)

/-- The dispatch of `SetFont` (part_001 lines 243–278) once family, style and
size are normalized and `underline` is recorded: return if already selected,
select an already loaded font, otherwise try the core fonts. -/
def setFontSteps (f : Fpdf) (familyStr styleStr : String) (size : ℚ)
    (coreLoad : String → String → Except String fontType) : Fpdf :=
  if f.fontFamily = familyStr ∧ f.fontStyle = styleStr ∧ f.fontSizePt = size then f
  else if assocHas f.fonts (familyStr ++ styleStr) then
    setFontSelect f familyStr styleStr size (familyStr ++ styleStr)
  else
    setFontCore f (if familyStr = "arial" then "helvetica" else familyStr)
      styleStr size coreLoad

/-- The body of `SetFont` after the error-flag guard (part_001 lines 226–288):
normalize family and style, record `underline`, default the size, then
dispatch. -/
def setFontBody (f : Fpdf) (familyStr0 styleStr0 : String) (size0 : ℚ)
    (coreLoad : String → String → Except String fontType) : Fpdf :=
  setFontSteps
    { f with underline := (goToUpper styleStr0).contains 'U' }
    (if familyStr0 = "" then f.fontFamily else goToLower familyStr0)
    (setFontStyleNorm styleStr0)
    (if size0 = 0 then f.fontSizePt else size0)
    coreLoad

/-- `SetFont` (part_001 lines 219–289).  `coreLoad` is the environment of
`coreFontReader` composed with `loadfont` for the embedded core-font
definitions (a `coreFontReader` failure sets `f.err`, skipping the
registration). -/
def setFont (f : Fpdf) (familyStr0 styleStr0 : String) (size0 : ℚ)
    (coreLoad : String → String → Except String fontType) : Fpdf :=
  match f.err with
  | some _ => f
  | none => setFontBody f familyStr0 styleStr0 size0 coreLoad

/-! ## Font object emitter (`putfonts`, part_001 lines 323–467) -/

/-- The `fileList` build of `putfonts`: the `File` field of every font that
has one, in registry iteration order. -/
def fileListOf (fonts : List (String × fontType)) : List String :=
  (fonts.map (·.2)).filterMap
    (fun info => if info.File.length > 0 then some info.File else none)

/-- The `lookup` map of `putfonts` read back at `file`: when several fonts
share a `File` value the last map write wins. -/
def fileLookup (fonts : List (String × fontType)) (file : String) : fontType :=
  (fonts.map (·.2)).foldl
    (fun acc info => if info.File = file then info else acc) fontTypeZero

/-- The body of one font-file embedding (part_001 lines 357–377), applied to
the loaded bytes: Type1 split-segment slicing, length fields, filter flag,
stream payload. -/
def putFontFileBody (f : Fpdf) (info : fontType) (font0 : List Nat) : Fpdf :=
  if ¬ (lastTwo info.File = ".z") ∧ info.Size2 > 0 then
    outs f
      ([.lengthHdr (intSlice font0 6 info.Size1 ++
          intSlice font0 (6 + info.Size1 + 6) info.Size2).length,
        .length1 info.Size1, .length23 info.Size2, .dictClose,
        .streamBytes (intSlice font0 6 info.Size1 ++
          intSlice font0 (6 + info.Size1 + 6) info.Size2), .endobj])
  else
    outs f
      ([.lengthHdr font0.length] ++
        (if lastTwo info.File = ".z" then [.filterFlate] else []) ++
        [.length1 info.OriginalSize] ++
        (if info.Size2 > 0 then [.length23 info.Size2] else []) ++
        [.dictClose, .streamBytes font0, .endobj])

/-- One iteration of the font-file loop (part_001 lines 346–378).  The
assignment `info.N = f.n` of line 350 targets the loop-local copy of the
map value and is never stored back into `f.fonts`, so it leaves no trace
in the state.  A `loadFontFile` failure sets `f.err` and aborts. -/
def putFontFileOne (f : Fpdf) (file : String) : Fpdf :=
  match (newobj f).fileData file with
  | none => { newobj f with err := some ("could not load font file " ++ file) }
  | some font0 => putFontFileBody (newobj f) (fileLookup f.fonts file) font0

/-- The font-file loop of `putfonts`, aborting on the first error. -/
def putFontFiles (f : Fpdf) : List String → Fpdf
  | [] => f
  | file :: rest =>
    match (putFontFileOne f file).err with
    | some _ => putFontFileOne f file
    | none => putFontFiles (putFontFileOne f file) rest

/-- The Core branch of the font-object loop (part_001 lines 398–408). -/
def putFontObjCore (f : Fpdf) (font : fontType) : Fpdf :=
  outs (newobj f)
    ([.fontDictOpen, .baseFont font.Name, .subtype "Type1"] ++
      (if font.Name ≠ "Symbol" ∧ font.Name ≠ "ZapfDingbats" then
        [.encodingWinAnsi] else []) ++
      [.dictClose, .endobj])

/-- The Type1/TrueType branch of the font-object loop (part_001 lines
409–454): font dictionary, widths array, then the descriptor whose
`/FontFile` reference is written with `origN`, the counter value captured
before the font dictionary was allocated. -/
def putFontObjEmbedded (nf : Nat) (f : Fpdf) (font : fontType) (origN : Nat) : Fpdf :=
  outs (newobj (outs (newobj (outs (newobj f)
    ([.fontDictOpen, .baseFont font.Name, .subtype font.Tp, .firstLastChar,
      .widthsRef (f.n + 2), .fontDescRef (f.n + 3)] ++
      (if font.DiffN > 0 then [.encodingRef ((nf : Int) + font.DiffN)]
        else [.encodingWinAnsi]) ++
      [.dictClose, .endobj])))
    [.widthsArr (font.Cw.drop 32), .endobj]))
    [.descriptorObj font.Name font.Desc
      (if font.Tp ≠ "Type1" then "2" else "") origN, .endobj]

/-- The font-object loop of `putfonts` (part_001 lines 390–464): capture
`origN`, store `font.N = f.n + 1` back into the registry, then dispatch on
the font kind; an unsupported kind sets `f.err` and aborts. -/
def putFontObjects (nf : Nat) (f : Fpdf) : List String → Fpdf
  | [] => f
  | key :: rest =>
    if (assocGetD f.fonts key fontTypeZero).Tp = "Core" then
      putFontObjects nf
        (putFontObjCore
          { f with fonts := (assocSet f.fonts key
              { assocGetD f.fonts key fontTypeZero with N := (f.n : Int) + 1 }) }
          { assocGetD f.fonts key fontTypeZero with N := (f.n : Int) + 1 })
        rest
    else if (assocGetD f.fonts key fontTypeZero).Tp = "Type1" ∨
        (assocGetD f.fonts key fontTypeZero).Tp = "TrueType" then
      putFontObjects nf
        (putFontObjEmbedded nf
          { f with fonts := (assocSet f.fonts key
              { assocGetD f.fonts key fontTypeZero with N := (f.n : Int) + 1 }) }
          { assocGetD f.fonts key fontTypeZero with N := (f.n : Int) + 1 }
          f.n)
        rest
    else
      { f with
        fonts := (assocSet f.fonts key
          { assocGetD f.fonts key fontTypeZero with N := (f.n : Int) + 1 })
        err := some ("unsupported font type: " ++
          (assocGetD f.fonts key fontTypeZero).Tp) }

/-- The encodings loop of `putfonts` (part_001 lines 328–333): one encoding
object per stored differences string, in order. -/
def putfontsDiffsPhase (f : Fpdf) : Fpdf :=
  f.diffs.foldl (fun g diff => outs (newobj g) [.encodingObj diff, .endobj]) f

/-- The iteration order of the font-file loop: `fileList`, sorted when
`catalogSort` is set. -/
def putfontsFileList (f : Fpdf) : List String :=
  if f.catalogSort then sortStrings (fileListOf f.fonts) else fileListOf f.fonts

/-- The state after the encodings loop and the font-file loop of `putfonts`. -/
def putfontsAfterFiles (f : Fpdf) : Fpdf :=
  putFontFiles (putfontsDiffsPhase f) (putfontsFileList f)

/-- The iteration order of the font-object loop: `keyList`, sorted when
`catalogSort` is set. -/
def putfontsKeyList (f : Fpdf) : List String :=
  if f.catalogSort then sortStrings (f.fonts.map (·.1)) else f.fonts.map (·.1)

/-- `putfonts` (part_001 lines 323–467): no-op under the error flag;
otherwise capture `nf`, emit one encoding object per differences string,
embed the font files (sorted by file name under `catalogSort`), then emit
the font dictionary, widths and descriptor objects per registered font
(sorted by key under `catalogSort`).  A font-file load failure aborts
before the font-object loop. -/
def putfonts (f : Fpdf) : Fpdf :=
  match f.err with
  | some _ => f
  | none =>
    match (putfontsAfterFiles f).err with
    | some _ => putfontsAfterFiles f
    | none =>
        putFontObjects f.n (putfontsAfterFiles f)
          (putfontsKeyList (putfontsAfterFiles f))

/-! ## Concrete session states used by witnesses and counterexamples -/

/-- A fresh session: no error, object counter past the fixed header objects,
empty registry, sorted catalog output. -/
def fpdfEmpty : Fpdf :=
  { err := none, n := 2, fonts := [], diffs := [], fontFamily := "",
    fontStyle := "", fontSizePt := 12, fontSize := 12, k := 1,
    underline := false, currentFont := fontTypeZero,
    coreFonts := ["courier", "helvetica", "times", "symbol", "zapfdingbats"],
    page := 0, catalogSort := true, output := [], fileData := fun _ => none }

/-- A sample TrueType registry entry. -/
def fontDemo : fontType :=
  { fontTypeZero with Tp := "TrueType", Name := "Demo" }

/-- A second, distinct sample entry. -/
def fontDemo2 : fontType :=
  { fontTypeZero with Tp := "TrueType", Name := "Demo2", Diff := "65 /A" }

/-! ## Theorems -/

/-- C9: every conversion of TrueType native font units to 1000-units-per-em
space (ascent, descent, capHeight, bbox, underline metrics, widths,
missingWidth) goes through `round`, and `round` rounds half-away-from-zero:
the result differs from the exact scaled value by at most 1/2, and at an
exact tie the rounded value is the integer of larger absolute value (never
banker's rounding).  The `float64` arithmetic is modelled by exact
rationals. -/
theorem c9_trueType_rounding_half_away_from_zero :
    (∀ ttf data encList,
      (ttfInfoRecord ttf data encList).Desc.Ascent =
          round (ttfScale ttf * (ttf.TypoAscender : ℚ)) ∧
      (ttfInfoRecord ttf data encList).Desc.Descent =
          round (ttfScale ttf * (ttf.TypoDescender : ℚ)) ∧
      (ttfInfoRecord ttf data encList).Desc.CapHeight =
          round (ttfScale ttf * (ttf.CapHeight : ℚ)) ∧
      (ttfInfoRecord ttf data encList).Desc.FontBBox =
        ⟨round (ttfScale ttf * (ttf.Xmin : ℚ)), round (ttfScale ttf * (ttf.Ymin : ℚ)),
         round (ttfScale ttf * (ttf.Xmax : ℚ)), round (ttfScale ttf * (ttf.Ymax : ℚ))⟩ ∧
      (ttfInfoRecord ttf data encList).Ut =
          round (ttfScale ttf * (ttf.UnderlineThickness : ℚ)) ∧
      (ttfInfoRecord ttf data encList).Up =
          round (ttfScale ttf * (ttf.UnderlinePosition : ℚ)) ∧
      (ttfInfoRecord ttf data encList).Desc.MissingWidth =
          round (ttfScale ttf * (ttf.Widths.getD 0 0 : ℚ)) ∧
      (ttfInfoRecord ttf data encList).Cw = trueTypeWidths ttf encList) ∧
    (∀ x : ℚ, |x - (round x : ℚ)| ≤ 1/2 ∧
      (|x - (round x : ℚ)| = 1/2 → |(round x : ℚ)| = |x| + 1/2)) := by
  constructor
  · intro ttf data encList
    exact ⟨rfl, rfl, rfl, rfl, rfl, rfl, rfl, rfl⟩
  · intro x
    unfold round
    by_cases hx : x < 0
    · simp only [if_pos hx]
      have h1 : ((⌊-x + 1/2⌋ : ℤ) : ℚ) ≤ -x + 1/2 := Int.floor_le _
      have h2 : -x + 1/2 < (⌊-x + 1/2⌋ : ℤ) + 1 := Int.lt_floor_add_one _
      constructor
      · rw [abs_le]
        push_cast
        constructor <;> linarith
      · intro h
        rcases (abs_eq (by norm_num : (0:ℚ) ≤ 1/2)).mp h with h3 | h3
        · push_cast at h3 ⊢
          rw [abs_of_neg (by linarith : x < 0),
            abs_of_neg (by linarith : -((⌊-x + 1/2⌋ : ℤ) : ℚ) < 0)]
          linarith
        · exfalso
          push_cast at h3
          linarith
    · simp only [if_neg hx]
      push_neg at hx
      have h1 : ((⌊x + 1/2⌋ : ℤ) : ℚ) ≤ x + 1/2 := Int.floor_le _
      have h2 : x + 1/2 < (⌊x + 1/2⌋ : ℤ) + 1 := Int.lt_floor_add_one _
      constructor
      · rw [abs_le]
        constructor <;> linarith
      · intro h
        rcases (abs_eq (by norm_num : (0:ℚ) ≤ 1/2)).mp h with h3 | h3
        · exfalso
          linarith
        · rw [abs_of_nonneg hx,
            abs_of_nonneg (by linarith : (0:ℚ) ≤ ((⌊x + 1/2⌋ : ℤ) : ℚ))]
          linarith

/-- A loop run over well-formed in-range lines returns the fold of slot
updates over the starting table. -/
theorem loadMapLoop_ok (lines : List (Option (Nat × encType))) :
    ∀ t, (∀ l ∈ lines, ∃ p e, l = some (p, e) ∧ p < 256) →
      loadMapLoop lines t = .ok (lines.foldl loadMapSpecStep t) := by
  induction lines with
  | nil => intro t _; rfl
  | cons l rest ih =>
    intro t hgood
    obtain ⟨p, e, rfl, hp⟩ := hgood l (List.mem_cons_self l rest)
    simp only [loadMapLoop, if_pos hp, List.foldl_cons]
    exact ih (t.set p e) (fun l' hl' => hgood l' (List.mem_cons_of_mem _ hl'))

/-- A loop run over lines containing a malformed line or an out-of-range
position returns an error. -/
theorem loadMapLoop_err (lines : List (Option (Nat × encType))) :
    ∀ t, (∃ l ∈ lines, l = none ∨ ∃ p e, l = some (p, e) ∧ 256 ≤ p) →
      ∃ msg, loadMapLoop lines t = .error msg := by
  induction lines with
  | nil => intro t h; obtain ⟨l, hl, _⟩ := h; exact absurd hl (List.not_mem_nil l)
  | cons l rest ih =>
    intro t hbad
    match l with
    | none => exact ⟨"scan error", rfl⟩
    | some (p, e) =>
      by_cases hp : p < 256
      · simp only [loadMapLoop, if_pos hp]
        apply ih
        obtain ⟨l', hl', hb⟩ := hbad
        rcases List.mem_cons.mp hl' with rfl | hmem
        · rcases hb with h0 | ⟨p', e', he', hge⟩
          · simp at h0
          · simp only [Option.some.injEq, Prod.mk.injEq] at he'
            obtain ⟨h1, _⟩ := he'
            omega
        · exact ⟨l', hmem, hb⟩
      · exact ⟨"map position exceeds 0xFF", by simp only [loadMapLoop, if_neg hp]⟩

/-- C7: `loadMap` initializes all 256 slots to `{-1, ".notdef"}` and sets the
slot named by each well-formed line; a line failing the
`!<hex> U+<hex> <name>` pattern, or naming a position ≥ 256, makes the whole
load fail with an error, and no partial table is returned (the `Except`
error case carries no table). -/
theorem c7_loadMap_fatal_or_full_table :
    (∀ lines, (∀ l ∈ lines, ∃ p e, l = some (p, e) ∧ p < 256) →
        loadMap lines = .ok (loadMapSpecTable lines)) ∧
    (∀ lines, (∃ l ∈ lines, l = none ∨ ∃ p e, l = some (p, e) ∧ 256 ≤ p) →
        ∃ msg, loadMap lines = .error msg) ∧
    loadMapSpecTable [] = loadMapInit ∧
    loadMapInit = List.replicate 256 ⟨-1, ".notdef"⟩ :=
  ⟨fun lines h => loadMapLoop_ok lines loadMapInit h,
   fun lines h => loadMapLoop_err lines loadMapInit h, rfl, rfl⟩

/-- Witness for C7: a two-line well-formed map loads to its fold of slot
updates; a line with position 0x12C ≥ 256 is fatal. -/
theorem c7_witness :
    loadMap [some (32, ⟨32, "space"⟩), some (65, ⟨65, "A"⟩)] =
        .ok (loadMapSpecTable [some (32, ⟨32, "space"⟩), some (65, ⟨65, "A"⟩)]) ∧
    (∃ msg, loadMap [some (300, ⟨1, "x"⟩)] = .error msg) := by
  constructor
  · apply c7_loadMap_fatal_or_full_table.1
    intro l hl
    simp only [List.mem_cons, List.not_mem_nil, or_false] at hl
    rcases hl with rfl | rfl
    · exact ⟨32, ⟨32, "space"⟩, rfl, by norm_num⟩
    · exact ⟨65, ⟨65, "A"⟩, rfl, by norm_num⟩
  · exact c7_loadMap_fatal_or_full_table.2.1 _
      ⟨some (300, ⟨1, "x"⟩), by simp, Or.inr ⟨300, ⟨1, "x"⟩, rfl, by norm_num⟩⟩

/-- Instances for evaluating concrete `Except` results in witnesses. -/
instance {ε α : Type} [DecidableEq ε] [DecidableEq α] : DecidableEq (Except ε α) :=
  fun a b =>
    match a, b with
    | .error e, .error e' => decidable_of_iff (e = e') (by simp)
    | .ok v, .ok v' => decidable_of_iff (v = v') (by simp)
    | .error _, .ok _ => isFalse (by simp)
    | .ok _, .error _ => isFalse (by simp)

/-- The payload buffer built by `segData` has exactly `size` bytes. -/
theorem segData_length (file : List Nat) (pos size : Nat) :
    (segData file pos size).length = size := by
  have : (segAvail file pos size).length ≤ size := by
    simp only [segAvail, List.length_take]
    omega
  simp only [segData, List.length_append, List.length_replicate]
  omega

/-- A successfully read segment's payload buffer has exactly `size` bytes
(the `make([]byte, s.size)` buffer is returned whole). -/
theorem segmentRead_data_length (file : List Nat) (pos : Nat) (s : segmentType) (p : Nat)
    (h : segmentRead file pos = .ok (s, p)) : s.data.length = s.size := by
  unfold segmentRead at h
  split at h
  · exact absurd h (by simp)
  · split at h
    · exact absurd h (by simp)
    · split at h
      · exact absurd h (by simp)
      · split at h
        · split at h
          · exact absurd h (by simp)
          · simp only [Except.ok.injEq, Prod.mk.injEq] at h
            rw [← h.1]
            exact segData_length _ _ _
        · exact absurd h (by simp)

/-- C5: when the embedding phase of `getInfoFromType1` succeeds, `rawData`
(`info.Data`) has length at least `segment1Length + segment2Length`
(`Size1 + Size2`), and splitting it at `Size1` reproduces exactly the two
segment payloads read from the PFB container. -/
theorem c5_type1_rawData_split (file : List Nat) (data : List Nat) (sz1 sz2 : Int)
    (h : type1Embed file = .ok (data, sz1, sz2)) :
    ∃ s1 p1 s2 p2, segmentRead file 0 = .ok (s1, p1) ∧
      segmentRead file p1 = .ok (s2, p2) ∧
      sz1 = (s1.size : Int) ∧ sz2 = (s2.size : Int) ∧
      data = s1.data ++ s2.data ∧
      data.take s1.size = s1.data ∧ data.drop s1.size = s2.data ∧
      sz1 + sz2 ≤ (data.length : Int) := by
  unfold type1Embed at h
  split at h
  · exact absurd h (by simp)
  · rename_i s1 p1 heq1
    split at h
    · exact absurd h (by simp)
    · rename_i s2 p2 heq2
      simp only [Except.ok.injEq, Prod.mk.injEq] at h
      obtain ⟨hdata, hsz1, hsz2⟩ := h
      have hl1 : s1.data.length = s1.size :=
        segmentRead_data_length file 0 s1 p1 heq1
      have hl2 : s2.data.length = s2.size :=
        segmentRead_data_length file p1 s2 p2 heq2
      refine ⟨s1, p1, s2, p2, heq1, heq2,
        hsz1.symm, hsz2.symm, hdata.symm, ?_, ?_, ?_⟩
      · rw [← hdata, ← hl1, List.take_left]
      · rw [← hdata, ← hl1, List.drop_left]
      · rw [← hdata, ← hsz1, ← hsz2]
        simp only [List.length_append]
        push_cast
        omega

/-- Witness for C5 on a concrete 15-byte PFB container: segment 1 is
`[10, 11]` (size 2), segment 2 is `[7]` (size 1); `Data = [10, 11, 7]`
splits back into the segments at offset 2. -/
theorem c5_witness :
    type1Embed [128, 1, 2, 0, 0, 0, 10, 11, 128, 2, 1, 0, 0, 0, 7] =
        .ok ([10, 11, 7], 2, 1) ∧
    ((2 : Int) + 1 ≤ (([10, 11, 7] : List Nat).length : Int)) ∧
    ([10, 11, 7] : List Nat).take 2 = [10, 11] ∧
    ([10, 11, 7] : List Nat).drop 2 = [7] := by
  have h := c5_type1_rawData_split [128, 1, 2, 0, 0, 0, 10, 11, 128, 2, 1, 0, 0, 0, 7]
    [10, 11, 7] 2 1 (by decide)
  obtain ⟨s1, p1, s2, p2, -, -, -, -, -, -, -, h8⟩ := h
  exact ⟨by decide, h8, by decide, by decide⟩

/-- C6: a marker byte other than 128 in the first or in the second segment
header makes the Type1 embedding extraction fail with the
"not a valid binary Type1" parse error; the error result carries no
`FontInfo` and no bytes of `rawData`. -/
theorem c6_type1_bad_marker_fatal :
    (∀ (file : List Nat) (b : Nat), file[0]? = some b → b ≠ 128 →
      type1Embed file = .error "font file is not a valid binary Type1") ∧
    (∀ (file : List Nat) (s1 : segmentType) (p1 : Nat) (b : Nat),
      segmentRead file 0 = .ok (s1, p1) → file[p1]? = some b → b ≠ 128 →
      type1Embed file = .error "font file is not a valid binary Type1") := by
  constructor
  · intro file b hb hne
    have h0 : segmentRead file 0 = .error "font file is not a valid binary Type1" := by
      unfold segmentRead
      rw [hb]
      simp [hne]
    simp [type1Embed, h0]
  · intro file s1 p1 b h1 hb hne
    have h2 : segmentRead file p1 = .error "font file is not a valid binary Type1" := by
      unfold segmentRead
      rw [hb]
      simp [hne]
    simp [type1Embed, h1, h2]

/-- Witness for C6: marker byte 0x7F in the first header is fatal, and
marker byte 0x7F in the second header (after a valid first segment) is
fatal. -/
theorem c6_witness :
    type1Embed [127, 1, 2, 0, 0, 0, 10, 11] =
        .error "font file is not a valid binary Type1" ∧
    type1Embed [128, 1, 1, 0, 0, 0, 9, 127, 2, 1, 0, 0, 0, 5] =
        .error "font file is not a valid binary Type1" :=
  ⟨c6_type1_bad_marker_fatal.1 [127, 1, 2, 0, 0, 0, 10, 11] 127 (by decide) (by decide),
   c6_type1_bad_marker_fatal.2 [128, 1, 1, 0, 0, 0, 9, 127, 2, 1, 0, 0, 0, 5]
     ⟨128, 1, 1, [9]⟩ 7 127 (by decide) (by decide) (by decide)⟩

/-- The differences fold computes the specification-side string: the `last`
counter of the loop and the optional previous-emitted position of the spec
stay related (`last = 0` before anything is emitted, since the loop starts
at position 32 > 0 + 1 the two make the same contiguity decisions). -/
theorem makeFontEncodingFold_spec (encList refList : encListType) :
    ∀ (ps : List Nat) (last : Nat) (buf : String) (prev : Option Nat),
      (∀ j ∈ ps, 2 ≤ j) →
      ((prev = none ∧ last = 0) ∨ prev = some last) →
      (ps.foldl (makeFontEncodingStep encList refList) (last, buf)).2 =
        buf ++ diffSpec encList refList ps prev := by
  intro ps
  induction ps with
  | nil =>
    intro last buf prev _ _
    simp [diffSpec, String.append_empty]
  | cons j rest ih =>
    intro last buf prev hge hrel
    simp only [List.foldl_cons, diffSpec]
    by_cases hd : (encList.getD j ⟨-1, ".notdef"⟩).name ≠ (refList.getD j ⟨-1, ".notdef"⟩).name
    · simp only [makeFontEncodingStep, if_pos hd]
      rw [ih j _ (some j) (fun x hx => hge x (List.mem_cons_of_mem _ hx)) (Or.inr rfl)]
      have hnum : (j ≠ last + 1) ↔ ¬ prev = some (j - 1) := by
        have h2 := hge j (List.mem_cons_self j rest)
        rcases hrel with ⟨hp, hl⟩ | hp
        · subst hp hl
          constructor
          · intro _ hc
            exact Option.noConfusion hc
          · intro _
            omega
        · subst hp
          constructor
          · intro h hc
            have h3 := Option.some.inj hc
            exact h (by omega)
          · intro h hc
            apply h
            have h3 : last = j - 1 := by omega
            rw [h3]
      by_cases hn : j = last + 1
      · have hprev : prev = some (j - 1) := by
          by_contra hc
          exact (hnum.mpr hc) hn
        rw [if_neg (by simp [hn]), if_pos hprev]
        simp [String.append_assoc, String.empty_append]
      · have hprev : ¬ prev = some (j - 1) := hnum.mp hn
        rw [if_pos hn, if_neg hprev]
        simp [String.append_assoc]
    · simp only [makeFontEncodingStep, if_neg hd]
      exact ih last buf prev (fun x hx => hge x (List.mem_cons_of_mem _ hx)) hrel

/-- When the two tables agree on every scanned position the differences fold
never moves from its initial state. -/
theorem makeFontEncodingFold_eq (encList refList : encListType) :
    ∀ (ps : List Nat) (st : Nat × String),
      (∀ j ∈ ps, (encList.getD j ⟨-1, ".notdef"⟩).name =
        (refList.getD j ⟨-1, ".notdef"⟩).name) →
      ps.foldl (makeFontEncodingStep encList refList) st = st := by
  intro ps
  induction ps with
  | nil => intro st _; rfl
  | cons j rest ih =>
    intro st heq
    rw [List.foldl_cons,
      show makeFontEncodingStep encList refList st j = st from by
        unfold makeFontEncodingStep
        rw [if_neg (not_not_intro (heq j (List.mem_cons_self j rest)))]]
    exact ih st (fun x hx => heq x (List.mem_cons_of_mem _ hx))

/-- C8: the differences builder scans positions 32–255 in order, emitting for
each differing slot the slash-prefixed glyph name, preceded by the numeric
position exactly when the position is not immediately contiguous with the
previous emitted position (the spec-side `diffSpec` says it in those words);
two tables that agree on all 256 slots produce the empty string; and
`makeFontEncoding` returns exactly this string for a loaded reference
table. -/
theorem c8_differences_builder :
    (∀ encList refList, makeFontEncodingCore encList refList =
        goTrimSpace (diffSpec encList refList (List.range' 32 224) none)) ∧
    (∀ encList refList,
      (∀ j < 256, (encList.getD j ⟨-1, ".notdef"⟩).name =
        (refList.getD j ⟨-1, ".notdef"⟩).name) →
      makeFontEncodingCore encList refList = "") ∧
    (∀ encList refLines refList, loadMap refLines = .ok refList →
      makeFontEncoding encList refLines = .ok (makeFontEncodingCore encList refList)) := by
  refine ⟨?_, ?_, ?_⟩
  · intro encList refList
    unfold makeFontEncodingCore
    rw [makeFontEncodingFold_spec encList refList (List.range' 32 224) 0 "" none
      (fun x hx => by
        have h2 := (List.mem_range'_1.mp hx).1
        omega)
      (Or.inl ⟨rfl, rfl⟩), String.empty_append]
  · intro encList refList h
    unfold makeFontEncodingCore
    rw [makeFontEncodingFold_eq encList refList (List.range' 32 224) (0, "")
      (fun j hj => h j (by
        have h2 := (List.mem_range'_1.mp hj).2
        omega))]
    rfl
  · intro encList refLines refList h
    unfold makeFontEncoding
    rw [h]

/-- Witness for C8: two copies of the initial table agree everywhere and
produce the empty differences string, and `makeFontEncoding` over an empty
reference file returns it. -/
theorem c8_witness :
    makeFontEncodingCore loadMapInit loadMapInit = "" ∧
    makeFontEncoding loadMapInit [] = .ok (makeFontEncodingCore loadMapInit loadMapInit) :=
  ⟨c8_differences_builder.2.1 loadMapInit loadMapInit (fun _ _ => rfl),
   c8_differences_builder.2.2 loadMapInit [] loadMapInit rfl⟩

/-- Writing a key into an association list makes the key present. -/
theorem assocHas_assocSet (l : List (String × α)) (k : String) (v : α) :
    assocHas (assocSet l k v) k = true := by
  induction l with
  | nil => simp [assocSet, assocHas]
  | cons kv rest ih =>
    unfold assocSet
    by_cases h : kv.1 = k
    · simp [assocHas, h]
    · simp only [if_neg h, assocHas, List.any_cons]
      simp only [assocHas] at ih
      simp [ih]

/-- `addFontFromInfo` never touches the error flag. -/
theorem addFontFromInfo_err (f : Fpdf) (info : fontType) (k : String) :
    (addFontFromInfo f info k).err = f.err := by
  unfold addFontFromInfo
  split
  · split <;> rfl
  · rfl

/-- `addFontFromInfo` stores the font under its key. -/
theorem addFontFromInfo_has (f : Fpdf) (info : fontType) (k : String) :
    assocHas (addFontFromInfo f info k).fonts k = true := by
  unfold addFontFromInfo
  split
  · split <;> exact assocHas_assocSet _ _ _
  · exact assocHas_assocSet _ _ _

/-- With the error flag set, `AddFontFromReader` returns the state unchanged. -/
theorem addFontFromReader_err (f : Fpdf) (fam sty : String)
    (r : Except String fontType) (e : String) (h : f.err = some e) :
    addFontFromReader f fam sty r = f := by
  unfold addFontFromReader
  rw [h]

/-- With a clear error flag and the key already registered,
`AddFontFromReader` returns the state unchanged. -/
theorem addFontFromReader_present (f : Fpdf) (fam sty : String)
    (r : Except String fontType) (h1 : f.err = none)
    (h2 : assocHas f.fonts (getFontKey fam sty) = true) :
    addFontFromReader f fam sty r = f := by
  unfold addFontFromReader
  rw [h1]
  simp [h2]

/-- C4: registering twice under the same registry key (the key being
`lowercase(family) + uppercase(style)` with `"IB"` normalized to `"BI"`)
leaves the registry exactly as the first registration left it — the whole
session state, hence font count, stored `FontInfo` and its `objectIndex`
`I`, is unchanged by the second call. -/
theorem c4_registry_idempotent :
    (∀ (f : Fpdf) (fam sty fam' sty' : String) (r r' : Except String fontType),
      getFontKey fam sty = getFontKey fam' sty' →
      addFontFromReader (addFontFromReader f fam sty r) fam' sty' r' =
        addFontFromReader f fam sty r) ∧
    (∀ fam, getFontKey fam "IB" = getFontKey fam "BI") := by
  constructor
  · intro f fam sty fam' sty' r r' hkey
    cases herr : f.err with
    | some e =>
      rw [addFontFromReader_err f fam sty r e herr,
        addFontFromReader_err f fam' sty' r' e herr]
    | none =>
      by_cases hk : assocHas f.fonts (getFontKey fam sty) = true
      · rw [addFontFromReader_present f fam sty r herr hk,
          addFontFromReader_present f fam' sty' r' herr (hkey ▸ hk)]
      · cases r with
        | error e =>
          have hinner : addFontFromReader f fam sty (.error e) =
              { f with err := some e } := by
            unfold addFontFromReader
            rw [herr, if_neg hk]
          rw [hinner, addFontFromReader_err _ fam' sty' r' e rfl]
        | ok info =>
          have hinner : addFontFromReader f fam sty (.ok info) =
              addFontFromInfo f info (getFontKey fam sty) := by
            unfold addFontFromReader
            rw [herr, if_neg hk]
          rw [hinner, addFontFromReader_present _ fam' sty' r'
            (by rw [addFontFromInfo_err, herr])
            (by rw [← hkey]; exact addFontFromInfo_has f info (getFontKey fam sty))]
  · intro fam
    unfold getFontKey
    rw [show goToUpper "IB" = "IB" from by decide, show goToUpper "BI" = "BI" from by decide,
      if_pos rfl, if_neg (by decide)]

/-- Witness for C4: `"Arial"/"IB"` and `"arial"/"bi"` share the registry key
`"arialBI"`, and re-registering through the second spelling is a no-op. -/
theorem c4_witness :
    getFontKey "Arial" "IB" = getFontKey "arial" "bi" ∧
    addFontFromReader
        (addFontFromReader fpdfEmpty "Arial" "IB" (.ok fontDemo)) "arial" "bi"
        (.ok fontDemo2) =
      addFontFromReader fpdfEmpty "Arial" "IB" (.ok fontDemo) :=
  ⟨by decide,
   c4_registry_idempotent.1 fpdfEmpty "Arial" "IB" "arial" "bi"
     (.ok fontDemo) (.ok fontDemo2) (by decide)⟩

/-- A key that is absent reads back as the supplied default. -/
theorem assocGetD_not_has (l : List (String × α)) (k : String) (d : α)
    (h : assocHas l k = false) : assocGetD l k d = d := by
  unfold assocGetD
  cases hf : l.find? (fun kv => kv.1 = k) with
  | none => rfl
  | some kv =>
    exfalso
    have hp := List.find?_some hf
    have hm := List.mem_of_find?_eq_some hf
    unfold assocHas at h
    rw [List.any_eq_false] at h
    exact absurd hp (by simpa using h kv hm)

/-- A session whose current font has a nonzero descriptor. -/
def fpdfCurrent : Fpdf :=
  { fpdfEmpty with
    currentFont := { fontTypeZero with Desc := { fontDescZero with Ascent := 5 } } }

/-- Counterexample to C10 as stated: with the empty family (whose registry
key `""` has no registered font) `GetFontDesc` returns the current font's
descriptor, not the zero `FontDescType`. -/
theorem c10_counterexample :
    assocHas fpdfCurrent.fonts (getFontKey "" "") = false ∧
    getFontDesc fpdfCurrent "" "" ≠ fontDescZero := by
  constructor
  · decide
  · intro h
    have : (5 : Int) = 0 := congrArg FontDescType.Ascent h
    exact absurd this (by decide)

/-- C10 (amended): for every nonempty family whose registry key has no
registered font, `GetFontDesc` returns the zero-valued `FontDescType`
(every numeric field 0, flags 0, zero bounding box) rather than signaling
an error; `getFontDesc` only reads the state, so the registry is untouched.
With the empty family the current font's descriptor is returned instead. -/
theorem c10_getFontDesc_missing_zero (f : Fpdf) (fam sty : String)
    (hfam : fam ≠ "")
    (hmiss : assocHas f.fonts (getFontKey fam sty) = false) :
    getFontDesc f fam sty = fontDescZero := by
  unfold getFontDesc
  rw [if_neg hfam, assocGetD_not_has f.fonts (getFontKey fam sty) fontTypeZero hmiss]
  rfl

/-- Witness for C10: an unregistered nonempty family reads back the zero
descriptor. -/
theorem c10_witness :
    "ghost" ≠ "" ∧ assocHas fpdfEmpty.fonts (getFontKey "ghost" "B") = false ∧
    getFontDesc fpdfEmpty "ghost" "B" = fontDescZero :=
  ⟨by decide, by decide,
   c10_getFontDesc_missing_zero fpdfEmpty "ghost" "B" (by decide) (by decide)⟩

/-- A session with the sticky error flag already set. -/
def fpdfErr : Fpdf := { fpdfEmpty with err := some "boom" }

/-- A small parsed TrueType font, used to build a `getInfoFromTrueType`
outcome that a real execution can produce. -/
def ttfDemo : TtfType :=
  { Embeddable := true, UnitsPerEm := 1000, PostScriptName := "Demo",
    Bold := false, ItalicAngle := 0, IsFixedPitch := false,
    TypoAscender := 800, TypoDescender := -200, UnderlineThickness := 50,
    UnderlinePosition := -100, Xmin := 0, Ymin := -200, Xmax := 1000,
    Ymax := 800, CapHeight := 700, Widths := [500], Chars := [] }

/-- Counterexample to C3 as stated: with the error flag set, `AddTTFFont`'s
successful-load path still registers the font — the operation is not a
no-op.  The load outcome is an actual `getInfoFromTrueType` result
(`ttfInfoRecord`, whose `Diff` is always empty), so the trace is one a real
execution produces; the diff table stays empty throughout, the violation is
the registry write alone. -/
theorem c3_counterexample :
    fpdfErr.err = some "boom" ∧ fpdfErr.fonts.length = 0 ∧
    (addTTFFont fpdfErr "fam" "" "x.ttf" (.ok loadMapInit)
        (.ok (ttfInfoRecord ttfDemo [0, 1, 2] loadMapInit))
        (.error "unused")).fonts.length = 1 ∧
    (addTTFFont fpdfErr "fam" "" "x.ttf" (.ok loadMapInit)
        (.ok (ttfInfoRecord ttfDemo [0, 1, 2] loadMapInit))
        (.error "unused")).diffs = [] := by
  refine ⟨rfl, rfl, ?_, ?_⟩ <;> decide

/-- C3 (amended): with the session error flag set, `SetFont`,
`AddFontFromReader` and `putfonts` are no-ops — the whole state, hence
registry, diff table, current font selection and output, is unchanged.
`AddFont` and `AddTTFFont` are not gated by the flag: `AddTTFFont`'s
successful-load path still registers the font into the registry while the
flag is set (see the counterexample), and `AddFont` can overwrite the flag
with a new open error. -/
theorem c3_sticky_error_guards (f : Fpdf) (e : String) (h : f.err = some e) :
    (∀ fam sty size cl, setFont f fam sty size cl = f) ∧
    (∀ fam sty r, addFontFromReader f fam sty r = f) ∧
    putfonts f = f := by
  refine ⟨fun fam sty size cl => ?_, fun fam sty r => ?_, ?_⟩
  · unfold setFont
    rw [h]
  · unfold addFontFromReader
    rw [h]
  · unfold putfonts
    rw [h]

/-- Witness for C3 (amended) on the concrete errored session. -/
theorem c3_witness :
    setFont fpdfErr "helvetica" "" 12 (fun _ _ => .error "x") = fpdfErr ∧
    addFontFromReader fpdfErr "a" "" (.ok fontDemo) = fpdfErr ∧
    putfonts fpdfErr = fpdfErr :=
  ⟨(c3_sticky_error_guards fpdfErr "boom" rfl).1 "helvetica" "" 12 (fun _ _ => .error "x"),
   (c3_sticky_error_guards fpdfErr "boom" rfl).2.1 "a" "" (.ok fontDemo),
   (c3_sticky_error_guards fpdfErr "boom" rfl).2.2⟩

/-- The object numbers at which stream payloads are emitted, in order: each
`streamBytes` event is paired with the most recent `objBegin`. -/
def streamObjNumsAux : List OutEvent → Option Nat → List Nat
  | [], _ => []
  | OutEvent.objBegin n :: rest, _ => streamObjNumsAux rest (some n)
  | OutEvent.streamBytes _ :: rest, some n => n :: streamObjNumsAux rest (some n)
  | OutEvent.streamBytes _ :: rest, none => streamObjNumsAux rest none
  | _ :: rest, cur => streamObjNumsAux rest cur

/-- Stream object numbers of an output trace. -/
def streamObjNums (evs : List OutEvent) : List Nat := streamObjNumsAux evs none

/-- The `/FontFile…` object references written in descriptor dictionaries,
in order. -/
def fontFileRefs (evs : List OutEvent) : List Nat :=
  evs.filterMap (fun e => match e with
    | OutEvent.descriptorObj _ _ _ n => some n
    | _ => none)

/-- Two embedded TrueType fonts registered under sorted keys with sorted
file names; every font file resolves to 8 bytes. -/
def fontA : fontType :=
  { fontTypeZero with Tp := "TrueType", Name := "FA", File := "a.ttf", OriginalSize := 8 }

/-- The second embedded TrueType font. -/
def fontB : fontType :=
  { fontTypeZero with Tp := "TrueType", Name := "FB", File := "b.ttf", OriginalSize := 8 }

/-- Session with two embedded fonts, the failing input for C1. -/
def c1State : Fpdf :=
  { fpdfEmpty with
    fonts := [("afont", fontA), ("bfont", fontB)]
    fileData := fun _ => some [0, 0, 0, 0, 0, 0, 0, 0] }

/-- C1 fails on the code: with two embedded fonts the stream objects are
allocated at numbers 3 and 4, but the descriptor dictionaries reference
`/FontFile2 4` and `/FontFile2 7` — the counter value captured just before
each font dictionary (`origN`), not the recorded stream object number.
The assignment `info.N = f.n` made at stream-emission time targets a
loop-local copy and is lost, so no descriptor sees it. -/
theorem c1_code_bug :
    (putfonts c1State).err = none ∧
    streamObjNums (putfonts c1State).output = [3, 4] ∧
    fontFileRefs (putfonts c1State).output = [4, 7] := by
  refine ⟨?_, ?_, ?_⟩ <;> decide

/-- The bytes of a well-formed two-segment PFB container: header
`[128, 1, 7, 0, 0, 0]`, segment 1 `[1..7]`, header `[128, 2, 20, 0, 0, 0]`,
segment 2 `[21..40]`. -/
def pfbBytes : List Nat :=
  [128, 1, 7, 0, 0, 0] ++ [1, 2, 3, 4, 5, 6, 7] ++ [128, 2, 20, 0, 0, 0] ++
    [21, 22, 23, 24, 25, 26, 27, 28, 29, 30, 31, 32, 33, 34, 35, 36, 37, 38, 39, 40]

/-- A registered Type1 font whose file is the PFB container above. -/
def fontT1 : fontType :=
  { fontTypeZero with
    Tp := "Type1"
    Name := "T1"
    File := "f.pfb"
    Size1 := 7
    Size2 := 20
    OriginalSize := 39 }

/-- Session with one embedded Type1 font, the failing input for C2. -/
def c2State : Fpdf :=
  { fpdfEmpty with
    fonts := [("t1", fontT1)]
    fileData := fun s => if s = "f.pfb" then some pfbBytes else none }

/-- The `/Length1` values emitted in an output trace. -/
def length1s (evs : List OutEvent) : List Int :=
  evs.filterMap (fun e => match e with
    | OutEvent.length1 v => some v
    | _ => none)

/-- The `/Length2 … /Length3 0` values emitted in an output trace. -/
def length23s (evs : List OutEvent) : List Int :=
  evs.filterMap (fun e => match e with
    | OutEvent.length23 v => some v
    | _ => none)

/-- The stream payloads emitted in an output trace. -/
def streamPayloads (evs : List OutEvent) : List (List Nat) :=
  evs.filterMap (fun e => match e with
    | OutEvent.streamBytes b => some b
    | _ => none)

/-- Whether a `/Filter /FlateDecode` line was emitted. -/
def hasFilterFlate (evs : List OutEvent) : Bool :=
  evs.any (fun e => e = OutEvent.filterFlate)

/-- C2 fails on the code: for the Type1 font the emitted object does declare
`/Length1 7`, `/Length2 20 /Length3 0` and no filter, as the claim says,
but the stream payload is `[1, 21]` — the slices `font[6:Size1]` and
`font[6+Size1+6:Size2]` treat `Size1`/`Size2` as end offsets, not lengths —
whereas the two segment payloads read back from the same container
concatenate to the 27-byte `(drop 6).take 7 ++ (drop 19).take 20`.  The
emitted stream thus contradicts its own declared lengths. -/
theorem c2_code_bug :
    length1s (putfonts c2State).output = [7] ∧
    length23s (putfonts c2State).output = [20] ∧
    hasFilterFlate (putfonts c2State).output = false ∧
    streamPayloads (putfonts c2State).output = [[1, 21]] ∧
    type1Embed pfbBytes =
      .ok ((pfbBytes.drop 6).take 7 ++ (pfbBytes.drop 19).take 20, 7, 20) ∧
    (pfbBytes.drop 6).take 7 ++ (pfbBytes.drop 19).take 20 ≠ [1, 21] := by
  refine ⟨?_, ?_, ?_, ?_, ?_, ?_⟩ <;> decide

/-- Witness for C9 at the ties 5/2 and −5/2: the code's `round` maps 2.5 to 3
and −2.5 to −3, away from zero. -/
theorem c9_witness :
    |(5/2 : ℚ) - (round (5/2 : ℚ) : ℚ)| = 1/2 ∧
      |(round (5/2 : ℚ) : ℚ)| = |(5/2 : ℚ)| + 1/2 ∧
      |(-5/2 : ℚ) - (round (-5/2 : ℚ) : ℚ)| = 1/2 ∧
      |(round (-5/2 : ℚ) : ℚ)| = |(-5/2 : ℚ)| + 1/2 :=
  ⟨by norm_num [round],
   (c9_trueType_rounding_half_away_from_zero.2 (5/2)).2 (by norm_num [round]),
   by norm_num [round],
   (c9_trueType_rounding_half_away_from_zero.2 (-5/2)).2 (by norm_num [round])⟩

end Gofpdf
